import Mathlib

/-!
# Record controller of casvisor: query and mutation handlers

A shallow embedding of `controllers/record.go` (the handlers `GetRecords`,
`GetRecord`, `GetRecordsByFilter`, `UpdateRecord`, `AddRecord`, `DeleteRecord`).

The handlers talk to three collaborators that are declared outside the
controller file:

* the `object` package (the record store) and the helpers of `util`: they are
  taken as parameters (`Object`, `Util`), so every theorem about a handler holds
  for every store implementation;
* the response helpers `ResponseOk`, `ResponseError`, `wrapActionResponse` and
  the `Record` type: modelled from the specification's envelope and data model;
* the paginator `github.com/beego/beego/utils/pagination` and `strconv.Atoi`:
  library code, embedded function by function (`NewPaginator`, `SetPaginator`,
  `PageNums`, `Nums`, `Page`, `Offset`).

A handler is a function from the request context and the store state to the
outcome, the new store state and the list of store operations it issued.
-/

namespace casvisor

/-! ## Data model -/

/-- Modelled from the spec: the `Record` type (`object.Record` is declared outside
the controller file). The identity components, the tenant, the creation time and
the open set of descriptive fields, all strings; the empty string is the zero
value of a field. -/
structure Record where
  Owner : String := ""
  Name : String := ""
  CreatedTime : String := ""
  Organization : String := ""
  fields : List (String × String) := []
  deriving DecidableEq, Repr

/-- Modelled from the spec: the derived identifier `owner + "/" + name` of a record. -/
def Record.GetId (r : Record) : String := r.Owner ++ "/" ++ r.Name

/-- Modelled from the spec: a record field addressed by name (case-sensitive). -/
def Record.field (r : Record) (name : String) : String :=
  if name = "owner" then r.Owner
  else if name = "name" then r.Name
  else if name = "createdTime" then r.CreatedTime
  else if name = "organization" then r.Organization
  else (r.fields.lookup name).getD ""

/-- The payload of a response: the `interface{}` values the handlers put in `Data`. -/
inductive Data where
  | null
  | records (rs : List Record)
  | record (r : Option Record)
  | affected (n : Nat)
  deriving DecidableEq, Repr

/-- Modelled from the spec: the response envelope `{status, msg, data, total}`
(`controllers.Response` is declared outside the controller file); `total` is the
second value given to `ResponseOk`. -/
structure Response where
  status : String
  msg : String
  data : Data
  total : Option Int
  deriving DecidableEq, Repr

/-- Modelled from the spec: `c.ResponseOk(data)`, a success envelope carrying one value. -/
def ResponseOk (data : Data) : Response := ⟨"ok", "", data, none⟩

/-- Modelled from the spec: `c.ResponseOk(data, total)`, a success envelope carrying
the data and a second value. -/
def ResponseOk2 (data : Data) (total : Int) : Response := ⟨"ok", "", data, some total⟩

/-- Modelled from the spec: `c.ResponseError(msg)`, an error envelope with the message. -/
def ResponseError (msg : String) : Response := ⟨"error", msg, Data.null, none⟩

/-- Modelled from the spec: `wrapActionResponse(affected, err)`, the uniform mutation
envelope `{status: "ok"|"error", data: affectedCount|nil, msg: errorText}`. -/
def wrapActionResponse (res : Nat × Option String) : Response :=
  match res.2 with
  | some e => ⟨"error", e, Data.null, none⟩
  | none => ⟨"ok", "", Data.affected res.1, none⟩

/-- What a handler leaves behind: it returned after `RequireAdmin` refused the
caller (which wrote its own response), it panicked, or it wrote a response. -/
inductive Outcome where
  | refused
  | panicked
  | responded (r : Response)
  deriving DecidableEq, Repr

/-- A store operation issued by a handler, with its arguments. -/
inductive Call where
  | GetRecords
  | GetRecordCount (field value : String) (filter : Record)
  | GetPaginationRecords (offset limit : Int) (field value sortField sortOrder : String)
      (filter : Record)
  | GetRecord (id : String)
  | GetRecordsByField (filter : Record)
  | UpdateRecord (id : String) (record : Record)
  | AddRecord (record : Record)
  | DeleteRecord (record : Record)
  deriving DecidableEq, Repr

/-- The result of running a handler on a store state. -/
structure Result (σ : Type) where
  outcome : Outcome
  store : σ
  calls : List Call

/-- The functions of package `object` the controller calls, over a store state `σ`.
Each one gets the state and returns its Go result with the new state. -/
structure Object (σ : Type) where
  GetRecords : σ → Except String (List Record) × σ
  GetRecordCount : String → String → Record → σ → Except String Int × σ
  GetPaginationRecords :
    Int → Int → String → String → String → String → Record → σ →
      Except String (List Record) × σ
  GetRecord : String → σ → Except String (Option Record) × σ
  GetRecordsByField : Record → σ → Except String (List Record) × σ
  UpdateRecord : String → Record → σ → (Nat × Option String) × σ
  AddRecord : Record → σ → (Nat × Option String) × σ
  DeleteRecord : Record → σ → (Nat × Option String) × σ

/-- The helpers the controller calls: `util.ParseInt` (`none` is a panic),
`util.JsonToStruct` and `json.Unmarshal` into a `Record`. -/
structure Util where
  ParseInt : String → Option Int
  JsonToStruct : String → Except String Record
  Unmarshal : String → Except String Record

/-- The request as the handlers see it: the query parameters (`c.Input().Get`,
the empty string for an absent one), the request body, and what the session
layer answers: `RequireAdmin` (the caller's organization and whether the caller
is admitted) and `IsGlobalAdmin`. -/
structure Ctx where
  input : String → String
  body : String
  RequireAdmin : String × Bool
  IsGlobalAdmin : Bool

/-! ## `strconv.Atoi` -/

/-- The digit loop of Go's `strconv.ParseUint` for base 10 and 64 bits, on the value
read so far: `none` is a syntax error (a character that is not a digit),
`some none` a range error (returned as soon as the digits overflow `uint64`,
before any later character is read), `some (some n)` the value. -/
def parseUint (n : Nat) : List Char → Option (Option Nat)
  | [] => some (some n)
  | ch :: rest =>
    if ch.isDigit then
      if n ≥ (2 ^ 64 - 1) / 10 + 1 then some none
      else if n * 10 + (ch.toNat - 48) > 2 ^ 64 - 1 then some none
      else parseUint (n * 10 + (ch.toNat - 48)) rest
    else none

/-- Go's `strconv.Atoi` on a 64-bit platform: the value and whether there was no
error. A syntax error gives 0; a value out of range gives the nearest bound of
`int64`. -/
def Atoi (s : String) : Int × Bool :=
  match s.data with
  | [] => (0, false)
  | c :: cs =>
    let neg := decide (c = '-')
    let ds := if c = '-' ∨ c = '+' then cs else c :: cs
    match ds with
    | [] => (0, false)
    | d :: rest =>
      match parseUint 0 (d :: rest) with
      | none => (0, false)
      | some none => if neg then (-(2 ^ 63 : Int), false) else ((2 ^ 63 - 1 : Int), false)
      | some (some un) =>
        if neg then
          (if un > 2 ^ 63 then (-(2 ^ 63 : Int), false) else (-(un : Int), true))
        else
          (if un ≥ 2 ^ 63 then ((2 ^ 63 - 1 : Int), false) else ((un : Int), true))

/-! ## The beego paginator -/

/-- The paginator of `beego/utils/pagination`: the form of the request, the page
length and the total number of items. -/
structure Paginator where
  form : String → String
  PerPageNums : Int
  nums : Int

/-- `pagination.NewPaginator`: a page length that is not positive becomes 10. -/
def NewPaginator (form : String → String) (per : Int) (nums : Int) : Paginator :=
  { form := form, PerPageNums := if per ≤ 0 then 10 else per, nums := nums }

/-- `pagination.SetPaginator(c.Ctx, per, nums)`. -/
def SetPaginator (c : Ctx) (per : Int) (nums : Int) : Paginator :=
  NewPaginator c.input per nums

/-- `Paginator.Nums`: the total number of items. -/
def Paginator.Nums (p : Paginator) : Int := p.nums

/-- `Paginator.PageNums`: `math.Ceil(float64(nums) / float64(PerPageNums))`, the
number of pages. The integer ceiling below is the value of the floating-point
expression whenever `0 ≤ nums < 2^53` and `0 < PerPageNums < 2^53`. -/
def Paginator.PageNums (p : Paginator) : Int := -((-p.nums) / p.PerPageNums)

/-- `Paginator.Page`: the form value `p` read with `strconv.Atoi` (error dropped),
lowered to the number of pages when above it, then raised to 1 when not positive. -/
def Paginator.Page (p : Paginator) : Int :=
  let page := (Atoi (p.form "p")).1
  let page := if page > p.PageNums then p.PageNums else page
  if page ≤ 0 then 1 else page

/-- `Paginator.Offset`: `(Page() - 1) * PerPageNums`. -/
def Paginator.Offset (p : Paginator) : Int := (p.Page - 1) * p.PerPageNums

/-! ## The handlers of `controllers/record.go` -/

section handlers

variable {σ : Type}

/-- `ApiController.GetRecords`. -/
def GetRecords (u : Util) (o : Object σ) (c : Ctx) (s : σ) : Result σ :=
  let organization := c.RequireAdmin.1
  if c.RequireAdmin.2 = false then ⟨Outcome.refused, s, []⟩
  else
    let limit := c.input "pageSize"
    let page := c.input "p"
    let field := c.input "field"
    let value := c.input "value"
    let sortField := c.input "sortField"
    let sortOrder := c.input "sortOrder"
    let organizationName := c.input "organizationName"
    if limit = "" ∨ page = "" then
      match o.GetRecords s with
      | (Except.error e, s1) => ⟨Outcome.responded (ResponseError e), s1, [Call.GetRecords]⟩
      | (Except.ok records, s1) =>
        ⟨Outcome.responded (ResponseOk (Data.records records)), s1, [Call.GetRecords]⟩
    else
      match u.ParseInt limit with
      | none => ⟨Outcome.panicked, s, []⟩
      | some limit =>
        let organization :=
          if c.IsGlobalAdmin = true ∧ organizationName ≠ "" then organizationName
          else organization
        let filterRecord : Record := { Organization := organization }
        match o.GetRecordCount field value filterRecord s with
        | (Except.error e, s1) =>
          ⟨Outcome.responded (ResponseError e), s1,
            [Call.GetRecordCount field value filterRecord]⟩
        | (Except.ok count, s1) =>
          let paginator := SetPaginator c limit count
          match o.GetPaginationRecords paginator.Offset limit field value sortField sortOrder
              filterRecord s1 with
          | (Except.error e, s2) =>
            ⟨Outcome.responded (ResponseError e), s2,
              [Call.GetRecordCount field value filterRecord,
               Call.GetPaginationRecords paginator.Offset limit field value sortField
                 sortOrder filterRecord]⟩
          | (Except.ok records, s2) =>
            ⟨Outcome.responded (ResponseOk2 (Data.records records) paginator.Nums), s2,
              [Call.GetRecordCount field value filterRecord,
               Call.GetPaginationRecords paginator.Offset limit field value sortField
                 sortOrder filterRecord]⟩

/-- `ApiController.GetRecord`. -/
def GetRecord (o : Object σ) (c : Ctx) (s : σ) : Result σ :=
  let id := c.input "id"
  match o.GetRecord id s with
  | (Except.error e, s1) => ⟨Outcome.responded (ResponseError e), s1, [Call.GetRecord id]⟩
  | (Except.ok record, s1) =>
    ⟨Outcome.responded (ResponseOk (Data.record record)), s1, [Call.GetRecord id]⟩

/-- `ApiController.GetRecordsByFilter`. -/
def GetRecordsByFilter (u : Util) (o : Object σ) (c : Ctx) (s : σ) : Result σ :=
  match u.JsonToStruct c.body with
  | Except.error e => ⟨Outcome.responded (ResponseError e), s, []⟩
  | Except.ok record =>
    match o.GetRecordsByField record s with
    | (Except.error e, s1) =>
      ⟨Outcome.responded (ResponseError e), s1, [Call.GetRecordsByField record]⟩
    | (Except.ok records, s1) =>
      ⟨Outcome.responded (ResponseOk (Data.records records)), s1,
        [Call.GetRecordsByField record]⟩

/-- `ApiController.UpdateRecord`. -/
def UpdateRecord (u : Util) (o : Object σ) (c : Ctx) (s : σ) : Result σ :=
  let id := c.input "id"
  match u.Unmarshal c.body with
  | Except.error e => ⟨Outcome.responded (ResponseError e), s, []⟩
  | Except.ok record =>
    ⟨Outcome.responded (wrapActionResponse (o.UpdateRecord id record s).1),
      (o.UpdateRecord id record s).2, [Call.UpdateRecord id record]⟩

/-- `ApiController.AddRecord`. -/
def AddRecord (u : Util) (o : Object σ) (c : Ctx) (s : σ) : Result σ :=
  match u.Unmarshal c.body with
  | Except.error e => ⟨Outcome.responded (ResponseError e), s, []⟩
  | Except.ok record =>
    ⟨Outcome.responded (wrapActionResponse (o.AddRecord record s).1),
      (o.AddRecord record s).2, [Call.AddRecord record]⟩

/-- `ApiController.DeleteRecord`. -/
def DeleteRecord (u : Util) (o : Object σ) (c : Ctx) (s : σ) : Result σ :=
  match u.Unmarshal c.body with
  | Except.error e => ⟨Outcome.responded (ResponseError e), s, []⟩
  | Except.ok record =>
    ⟨Outcome.responded (wrapActionResponse (o.DeleteRecord record s).1),
      (o.DeleteRecord record s).2, [Call.DeleteRecord record]⟩

end handlers

/-! ## A list-backed store following the specification -/

/-- Modelled from the spec: the template part of the Filter Evaluator (the store's
filter is declared in package `object`, outside the controller file). Every
non-empty field of the template is an equality constraint; empty fields impose none. -/
def matchesTemplate (t r : Record) : Bool :=
  decide (t.Owner = "" ∨ r.Owner = t.Owner) &&
  decide (t.Name = "" ∨ r.Name = t.Name) &&
  decide (t.CreatedTime = "" ∨ r.CreatedTime = t.CreatedTime) &&
  decide (t.Organization = "" ∨ r.Organization = t.Organization) &&
  t.fields.all (fun kv => decide (kv.2 = "" ∨ r.field kv.1 = kv.2))

/-- Modelled from the spec: the Filter Evaluator with the optional `(field, value)`
override, which constrains only when both are non-empty. -/
def matchesFilter (field value : String) (t r : Record) : Bool :=
  matchesTemplate t r && decide (field = "" ∨ value = "" ∨ r.field field = value)

/-- Stable insertion of a record before the first one it may precede. -/
def insertBy (le : Record → Record → Bool) (x : Record) : List Record → List Record
  | [] => [x]
  | y :: ys => if le x y then x :: y :: ys else y :: insertBy le x ys

/-- Modelled from the spec: the ordering of a page fetch. No sort field keeps the
natural order; otherwise a stable sort by that field, ascending unless the order
is `descend`. -/
def sortRecords (sortField sortOrder : String) (rs : List Record) : List Record :=
  if sortField = "" then rs
  else if sortOrder = "descend" then
    rs.foldr (insertBy (fun x y => !decide (x.field sortField < y.field sortField))) []
  else
    rs.foldr (insertBy (fun x y => !decide (y.field sortField < x.field sortField))) []

/-- Both records carry the same composite key `(owner, name)`. -/
def sameKey (a b : Record) : Bool := decide (a.Owner = b.Owner) && decide (a.Name = b.Name)

/-- Modelled from the spec: the record store of package `object` (declared outside the
controller file) as a keyed collection held in a list, with the operations of the
specification: get-all, count-matching, fetch-page, get-by-key (an error when
absent), filter-by-example, and add (conflict on an existing key), update
(replace, not found when absent), delete (idempotent). -/
def listStore : Object (List Record) where
  GetRecords := fun s => (Except.ok s, s)
  GetRecordCount := fun field value t s =>
    (Except.ok ((s.filter (matchesFilter field value t)).length : Int), s)
  GetPaginationRecords := fun offset limit field value sortField sortOrder t s =>
    (Except.ok (((sortRecords sortField sortOrder (s.filter (matchesFilter field value t))).drop
        offset.toNat).take limit.toNat), s)
  GetRecord := fun id s =>
    match s.find? (fun r => decide (r.GetId = id)) with
    | some r => (Except.ok (some r), s)
    | none => (Except.error "NotFound", s)
  GetRecordsByField := fun t s => (Except.ok (s.filter (matchesTemplate t)), s)
  UpdateRecord := fun id r s =>
    if s.any (fun x => decide (x.GetId = id)) then
      ((1, none), s.map (fun x => if x.GetId = id then { r with Owner := x.Owner, Name := x.Name } else x))
    else ((0, some "NotFound"), s)
  AddRecord := fun r s =>
    if s.any (sameKey r) then ((0, some "Conflict"), s) else ((1, none), s ++ [r])
  DeleteRecord := fun r s =>
    (((s.filter (sameKey r)).length, none), s.filter (fun x => !sameKey r x))

/-- A stand-in decoder used to run the handlers on concrete requests: the body
`owner,name,organization` is a record, the empty body is a decoding error. -/
def sampleDecode (body : String) : Except String Record :=
  match body.data with
  | [] => Except.error "unexpected end of JSON input"
  | cs =>
    let p1 := cs.span (fun ch => decide (ch ≠ ','))
    let p2 := (p1.2.drop 1).span (fun ch => decide (ch ≠ ','))
    Except.ok { Owner := String.mk p1.1, Name := String.mk p2.1,
                Organization := String.mk (p2.2.drop 1) }

/-- Concrete helpers used to run the handlers: `ParseInt` is `strconv.Atoi` that
panics on an error, both decoders are `sampleDecode`. -/
def sampleUtil : Util where
  ParseInt := fun s => if (Atoi s).2 = true then some (Atoi s).1 else none
  JsonToStruct := sampleDecode
  Unmarshal := sampleDecode

/-- A request with the given query parameters and body, made by a caller of the
given organization who is admitted by `RequireAdmin`. -/
def request (params : List (String × String)) (body : String) (org : String)
    (globalAdmin : Bool) : Ctx where
  input := fun k => (params.lookup k).getD ""
  body := body
  RequireAdmin := (org, true)
  IsGlobalAdmin := globalAdmin

/-- A store of `n` records of one organization, named `r1 … rn` in natural order. -/
def recordsOf (org : String) (n : Nat) : List Record :=
  (List.range n).map
    (fun i => { Owner := "admin", Name := "r" ++ toString (i + 1), Organization := org })

/-- A store holding two records of organization `A` followed by one of organization `B`. -/
def mixedStore : List Record := recordsOf "A" 2 ++ recordsOf "B" 1

/-- A paged request (`pageSize=10`, `p=2`) by a caller of organization `A`. -/
def pagedRequest : Ctx := request [("pageSize", "10"), ("p", "2")] "" "A" false

/-- A request without pagination parameters by a caller of organization `B` who is
not a global admin. -/
def unboundedRequest : Ctx := request [("field", "name"), ("value", "r1")] "" "B" false

/-- A request whose body is the template `organization = A`, by a caller of
organization `B` who is not a global admin. -/
def filterRequest : Ctx := request [] ",,A" "B" false

/-- A mutation request: the record `admin/r1` of organization `A`, with `id=admin/r1`. -/
def mutationRequest : Ctx := request [("id", "admin/r1")] "admin,r1,A" "A" false

/-- The filter argument of a store call, when it has one. -/
def Call.filter : Call → Option Record
  | Call.GetRecordCount _ _ t => some t
  | Call.GetPaginationRecords _ _ _ _ _ _ t => some t
  | Call.GetRecordsByField t => some t
  | _ => none

/-- The spec's page count, a second definition that follows its words:
`totalPages = ceil(totalCount / pageSize)`, written with integer arithmetic. -/
def specTotalPages (totalCount pageSize : Int) : Int :=
  (totalCount + pageSize - 1) / pageSize

/-- The filter template of paged mode (lines 44 to 47 of the controller): its only
non-empty field is the organization, which is `organizationName` for a global
admin who sent a non-empty one and the organization of `RequireAdmin` otherwise. -/
def filterRecord (c : Ctx) : Record :=
  { Organization :=
      if c.IsGlobalAdmin = true ∧ c.input "organizationName" ≠ "" then
        c.input "organizationName"
      else c.RequireAdmin.1 }

/-! ## The paginator's arithmetic -/

/-- The number of pages is the least `k` with `nums ≤ k * PerPageNums`. -/
theorem pageNums_bounds (p : Paginator) (hper : 0 < p.PerPageNums) :
    (p.PageNums - 1) * p.PerPageNums < p.nums ∧ p.nums ≤ p.PageNums * p.PerPageNums := by
  unfold Paginator.PageNums
  have h1 := Int.ediv_mul_le (-p.nums) (ne_of_gt hper)
  have h2 := Int.lt_ediv_add_one_mul_self (-p.nums) hper
  constructor <;> nlinarith

/-- The paginator's page count is the spec's `ceil(totalCount / pageSize)`. -/
theorem pageNums_eq_spec (p : Paginator) (hper : 0 < p.PerPageNums) :
    p.PageNums = specTotalPages p.nums p.PerPageNums := by
  have hb := pageNums_bounds p hper
  unfold specTotalPages
  have h1 := Int.ediv_mul_le (p.nums + p.PerPageNums - 1) (ne_of_gt hper)
  have h2 := Int.lt_ediv_add_one_mul_self (p.nums + p.PerPageNums - 1) hper
  set k := p.PageNums
  set q := (p.nums + p.PerPageNums - 1) / p.PerPageNums
  have a : k < q + 1 := by
    by_contra h
    have : q + 1 ≤ k := by omega
    nlinarith
  have b : q < k + 1 := by
    by_contra h
    have : k + 1 ≤ q := by omega
    nlinarith
  omega

section paths

variable {σ : Type}

theorem GetRecords_refused (u : Util) (o : Object σ) (c : Ctx) (s : σ)
    (hadm : c.RequireAdmin.2 = false) :
    GetRecords u o c s = ⟨Outcome.refused, s, []⟩ := by
  simp [GetRecords, hadm]

theorem GetRecords_unbounded (u : Util) (o : Object σ) (c : Ctx) (s : σ)
    (hadm : c.RequireAdmin.2 = true) (hmode : c.input "pageSize" = "" ∨ c.input "p" = "") :
    GetRecords u o c s =
      ⟨Outcome.responded
          (match (o.GetRecords s).1 with
           | Except.error e => ResponseError e
           | Except.ok records => ResponseOk (Data.records records)),
        (o.GetRecords s).2, [Call.GetRecords]⟩ := by
  simp only [GetRecords, hadm, hmode, if_true]
  rcases h : o.GetRecords s with ⟨r, s1⟩
  cases r <;> simp

theorem GetRecords_panic (u : Util) (o : Object σ) (c : Ctx) (s : σ)
    (hadm : c.RequireAdmin.2 = true) (hl : c.input "pageSize" ≠ "") (hp : c.input "p" ≠ "")
    (hparse : u.ParseInt (c.input "pageSize") = none) :
    GetRecords u o c s = ⟨Outcome.panicked, s, []⟩ := by
  simp [GetRecords, hadm, hl, hp, hparse]

theorem GetRecords_count_error (u : Util) (o : Object σ) (c : Ctx) (s : σ)
    (hadm : c.RequireAdmin.2 = true) (hl : c.input "pageSize" ≠ "") (hp : c.input "p" ≠ "")
    (limit : Int) (hparse : u.ParseInt (c.input "pageSize") = some limit)
    (e : String) (s1 : σ)
    (hcount : o.GetRecordCount (c.input "field") (c.input "value") (filterRecord c) s =
      (Except.error e, s1)) :
    GetRecords u o c s =
      ⟨Outcome.responded (ResponseError e), s1,
        [Call.GetRecordCount (c.input "field") (c.input "value") (filterRecord c)]⟩ := by
  unfold filterRecord at hcount
  simp [GetRecords, hadm, hl, hp, hparse, hcount, filterRecord]

theorem GetRecords_paged (u : Util) (o : Object σ) (c : Ctx) (s : σ)
    (hadm : c.RequireAdmin.2 = true) (hl : c.input "pageSize" ≠ "") (hp : c.input "p" ≠ "")
    (limit : Int) (hparse : u.ParseInt (c.input "pageSize") = some limit)
    (count : Int) (s1 : σ)
    (hcount : o.GetRecordCount (c.input "field") (c.input "value") (filterRecord c) s =
      (Except.ok count, s1)) :
    GetRecords u o c s =
      ⟨Outcome.responded
          (match (o.GetPaginationRecords (SetPaginator c limit count).Offset limit
              (c.input "field") (c.input "value") (c.input "sortField") (c.input "sortOrder")
              (filterRecord c) s1).1 with
           | Except.error e => ResponseError e
           | Except.ok records =>
             ResponseOk2 (Data.records records) (SetPaginator c limit count).Nums),
        (o.GetPaginationRecords (SetPaginator c limit count).Offset limit
              (c.input "field") (c.input "value") (c.input "sortField") (c.input "sortOrder")
              (filterRecord c) s1).2,
        [Call.GetRecordCount (c.input "field") (c.input "value") (filterRecord c),
         Call.GetPaginationRecords (SetPaginator c limit count).Offset limit
              (c.input "field") (c.input "value") (c.input "sortField") (c.input "sortOrder")
              (filterRecord c)]⟩ := by
  unfold filterRecord at hcount
  simp only [GetRecords, hadm, hl, hp, hparse, hcount, filterRecord]
  rcases h : o.GetPaginationRecords (SetPaginator c limit count).Offset limit
      (c.input "field") (c.input "value") (c.input "sortField") (c.input "sortOrder")
      { Organization :=
          if c.IsGlobalAdmin = true ∧ c.input "organizationName" ≠ "" then
            c.input "organizationName"
          else c.RequireAdmin.1 } s1 with ⟨r, s2⟩
  cases r <;> simp [h]

/-- In paged mode every store call of `GetRecords` is a count or a page fetch with
the override `(field, value)` of the request and the template `filterRecord`. -/
theorem GetRecords_paged_calls (u : Util) (o : Object σ) (c : Ctx) (s : σ)
    (hadm : c.RequireAdmin.2 = true) (hl : c.input "pageSize" ≠ "") (hp : c.input "p" ≠ "") :
    ∀ call ∈ (GetRecords u o c s).calls,
      call = Call.GetRecordCount (c.input "field") (c.input "value") (filterRecord c) ∨
      ∃ offset limit, u.ParseInt (c.input "pageSize") = some limit ∧
        call = Call.GetPaginationRecords offset limit (c.input "field") (c.input "value")
          (c.input "sortField") (c.input "sortOrder") (filterRecord c) := by
  intro call hcall
  cases hparse : u.ParseInt (c.input "pageSize") with
  | none =>
    rw [GetRecords_panic u o c s hadm hl hp hparse] at hcall
    simp at hcall
  | some limit =>
    rcases hcount : o.GetRecordCount (c.input "field") (c.input "value") (filterRecord c) s
      with ⟨r, s1⟩
    cases r with
    | error e =>
      rw [GetRecords_count_error u o c s hadm hl hp limit hparse e s1 hcount] at hcall
      simp at hcall
      exact Or.inl hcall
    | ok count =>
      rw [GetRecords_paged u o c s hadm hl hp limit hparse count s1 hcount] at hcall
      simp at hcall
      rcases hcall with h | h
      · exact Or.inl h
      · exact Or.inr ⟨_, _, rfl, h⟩

end paths

/-! ## Paged mode: scope, filter and mode selection -/

section paged

variable {σ : Type}

/-- C10: `GetRecords` selects its mode by the presence of the pagination parameters.
For an admitted request, the handler runs in unbounded mode (its one store call
is `object.GetRecords`) exactly when `pageSize` or `p` is empty, and in paged
mode (no call of `object.GetRecords`, the count first) exactly when both are
non-empty. In unbounded mode the response is the store's record list as
`object.GetRecords` returned it, or its error, and every admitted request with
the same `pageSize` and `p` gets the same result, whatever its `field`,
`value`, `sortField`, `sortOrder` and `organizationName`. -/
theorem GetRecords_mode_selection (u : Util) (o : Object σ) (c : Ctx) (s : σ)
    (hadm : c.RequireAdmin.2 = true) :
    ((GetRecords u o c s).calls = [Call.GetRecords] ↔
      (c.input "pageSize" = "" ∨ c.input "p" = "")) ∧
    ((c.input "pageSize" = "" ∨ c.input "p" = "") →
      (GetRecords u o c s).store = (o.GetRecords s).2 ∧
      (∀ records, (o.GetRecords s).1 = Except.ok records →
        (GetRecords u o c s).outcome = Outcome.responded (ResponseOk (Data.records records))) ∧
      (∀ e, (o.GetRecords s).1 = Except.error e →
        (GetRecords u o c s).outcome = Outcome.responded (ResponseError e)) ∧
      ∀ c2 : Ctx, c2.RequireAdmin.2 = true → c2.input "pageSize" = c.input "pageSize" →
        c2.input "p" = c.input "p" → GetRecords u o c2 s = GetRecords u o c s) ∧
    ((c.input "pageSize" ≠ "" ∧ c.input "p" ≠ "") →
      Call.GetRecords ∉ (GetRecords u o c s).calls ∧
      ∀ limit, u.ParseInt (c.input "pageSize") = some limit →
        (GetRecords u o c s).calls.head? =
          some (Call.GetRecordCount (c.input "field") (c.input "value") (filterRecord c))) := by
  have hpaged : (c.input "pageSize" ≠ "" ∧ c.input "p" ≠ "") →
      Call.GetRecords ∉ (GetRecords u o c s).calls := by
    rintro ⟨hl, hp⟩ hmem
    rcases GetRecords_paged_calls u o c s hadm hl hp _ hmem with h | ⟨_, _, _, h⟩ <;> cases h
  refine ⟨⟨?_, ?_⟩, ?_, ?_⟩
  · intro hcalls
    by_contra hne
    push_neg at hne
    apply hpaged hne
    rw [hcalls]
    exact List.mem_singleton.mpr rfl
  · intro hmode
    rw [GetRecords_unbounded u o c s hadm hmode]
  · intro hmode
    rw [GetRecords_unbounded u o c s hadm hmode]
    refine ⟨rfl, ?_, ?_, ?_⟩
    · intro records h
      simp only [h]
    · intro e h
      simp only [h]
    · intro c2 hadm2 e1 e2
      rw [GetRecords_unbounded u o c2 s hadm2 (by rw [e1, e2]; exact hmode)]
  · intro hmode
    refine ⟨hpaged hmode, ?_⟩
    intro limit hparse
    rcases hcount : o.GetRecordCount (c.input "field") (c.input "value") (filterRecord c) s
      with ⟨r, s1⟩
    cases r with
    | error e =>
      rw [GetRecords_count_error u o c s hadm hmode.1 hmode.2 limit hparse e s1 hcount]; rfl
    | ok count =>
      rw [GetRecords_paged u o c s hadm hmode.1 hmode.2 limit hparse count s1 hcount]; rfl

end paged

/-! ## Paged mode: what the paginator contributes -/

section paginator

variable {σ : Type}

/-- C2, refuted as stated: with 25 matching records, `pageSize=10` and `p=2` the
response carries records 11 to 20 and the total 25, the number of matching
records, while the spec's `totalPages` is 3. -/
theorem GetRecords_total_counterexample :
    (listStore.GetRecordCount "" "" { Organization := "A" } (recordsOf "A" 25)).1 =
      Except.ok 25 ∧
    (GetRecords sampleUtil listStore pagedRequest
      (recordsOf "A" 25)).outcome =
      Outcome.responded (ResponseOk2 (Data.records ((recordsOf "A" 20).drop 10)) 25) ∧
    specTotalPages 25 10 = 3 ∧
    (ResponseOk2 (Data.records ((recordsOf "A" 20).drop 10)) 25).total ≠
      some (specTotalPages 25 10) := by
  refine ⟨rfl, by decide, by decide, by decide⟩

/-- C2, amended: in paged mode every success response of `GetRecords` carries as
its total the count `object.GetRecordCount` returned for the filter, that is
the number of matching records (`paginator.Nums()`), not a number of pages. -/
theorem GetRecords_total_is_count (u : Util) (o : Object σ) (c : Ctx) (s : σ)
    (hadm : c.RequireAdmin.2 = true) (hl : c.input "pageSize" ≠ "") (hp : c.input "p" ≠ "")
    (r : Response) (hout : (GetRecords u o c s).outcome = Outcome.responded r)
    (hok : r.status = "ok") :
    ∃ count s1,
      o.GetRecordCount (c.input "field") (c.input "value") (filterRecord c) s =
        (Except.ok count, s1) ∧
      r.total = some count := by
  cases hparse : u.ParseInt (c.input "pageSize") with
  | none =>
    rw [GetRecords_panic u o c s hadm hl hp hparse] at hout
    cases hout
  | some limit =>
    rcases hcount : o.GetRecordCount (c.input "field") (c.input "value") (filterRecord c) s
      with ⟨res, s1⟩
    cases res with
    | error e =>
      rw [GetRecords_count_error u o c s hadm hl hp limit hparse e s1 hcount] at hout
      cases hout
      simp [ResponseError] at hok
    | ok count =>
      refine ⟨count, s1, rfl, ?_⟩
      rw [GetRecords_paged u o c s hadm hl hp limit hparse count s1 hcount] at hout
      simp only [Outcome.responded.injEq] at hout
      subst hout
      split at hok
      · simp [ResponseError] at hok
      · rfl

end paginator

/-! ## Concrete runs of the paged-mode theorems -/

/-- C10 on a concrete request: without pagination parameters the one store call is
`object.GetRecords` and the response is the whole store, although the request
carries `field` and `value`. -/
theorem GetRecords_mode_selection_witness :
    unboundedRequest.RequireAdmin.2 = true ∧
    ((GetRecords sampleUtil listStore unboundedRequest mixedStore).calls = [Call.GetRecords] ↔
      (unboundedRequest.input "pageSize" = "" ∨ unboundedRequest.input "p" = "")) ∧
    (GetRecords sampleUtil listStore unboundedRequest mixedStore).outcome =
      Outcome.responded (ResponseOk (Data.records mixedStore)) :=
  ⟨by decide,
    (GetRecords_mode_selection sampleUtil listStore unboundedRequest mixedStore (by decide)).1,
    by decide⟩

/-- C2, amended, on the scenario of 25 records with `pageSize=10` and `p=2`: the
total of the response is the count. -/
theorem GetRecords_total_is_count_witness :
    (pagedRequest.RequireAdmin.2 = true ∧ pagedRequest.input "pageSize" ≠ "" ∧
      pagedRequest.input "p" ≠ "" ∧
      (GetRecords sampleUtil listStore pagedRequest (recordsOf "A" 25)).outcome =
        Outcome.responded (ResponseOk2 (Data.records ((recordsOf "A" 20).drop 10)) 25)) ∧
    ∃ count s1,
      listStore.GetRecordCount (pagedRequest.input "field") (pagedRequest.input "value")
        (filterRecord pagedRequest) (recordsOf "A" 25) = (Except.ok count, s1) ∧
      (ResponseOk2 (Data.records ((recordsOf "A" 20).drop 10)) 25).total = some count :=
  ⟨⟨by decide, by decide, by decide, by decide⟩,
    GetRecords_total_is_count sampleUtil listStore pagedRequest (recordsOf "A" 25)
      (by decide) (by decide) (by decide) _ (by decide) (by decide)⟩

section scope

variable {σ : Type}

/-- C5, the code at the failing input: in unbounded mode a caller of organization
`B` who is not a global admin receives the whole store, here with the two
records of organization `A`; `object.GetRecords()` takes no scope argument. -/
theorem GetRecords_unbounded_returns_foreign_records :
    unboundedRequest.IsGlobalAdmin = false ∧ unboundedRequest.RequireAdmin = ("B", true) ∧
    (GetRecords sampleUtil listStore unboundedRequest mixedStore).calls = [Call.GetRecords] ∧
    (GetRecords sampleUtil listStore unboundedRequest mixedStore).outcome =
      Outcome.responded (ResponseOk (Data.records mixedStore)) ∧
    (∃ r ∈ mixedStore, r.Organization = "A" ∧ r.Organization ≠ unboundedRequest.RequireAdmin.1) := by
  refine ⟨by decide, by decide, by decide, by decide, ?_⟩
  exact ⟨{ Owner := "admin", Name := "r1", Organization := "A" }, by decide, by decide, by decide⟩

/-- C6, refuted as stated: a caller of organization `B` who is not a global admin
sends the template `organization = A` in the body; the store is queried with
that template and the records of organization `A` are returned. The same
request with `organization = B` in the body queries organization `B`. -/
theorem GetRecordsByFilter_counterexample :
    filterRequest.IsGlobalAdmin = false ∧ filterRequest.RequireAdmin = ("B", true) ∧
    (GetRecordsByFilter sampleUtil listStore filterRequest mixedStore).calls =
      [Call.GetRecordsByField { Organization := "A" }] ∧
    (GetRecordsByFilter sampleUtil listStore filterRequest mixedStore).outcome =
      Outcome.responded (ResponseOk (Data.records (recordsOf "A" 2))) ∧
    (GetRecordsByFilter sampleUtil listStore (request [] ",,B" "B" false) mixedStore).calls =
      [Call.GetRecordsByField { Organization := "B" }] := by
  refine ⟨by decide, by decide, by decide, by decide, by decide⟩

/-- C6, amended: for every request to `GetRecordsByFilter` the template passed to
the store is exactly the record decoded from the request body, its organization
field included; no scope is resolved for the caller, so the result is the same
for every caller and every query string with that body. A body that cannot be
decoded gives the decoder's error and no store call. -/
theorem GetRecordsByFilter_template_is_body (u : Util) (o : Object σ) (c : Ctx) (s : σ) :
    (∀ record, u.JsonToStruct c.body = Except.ok record →
      (GetRecordsByFilter u o c s).calls = [Call.GetRecordsByField record] ∧
      (GetRecordsByFilter u o c s).store = (o.GetRecordsByField record s).2 ∧
      (∀ records, (o.GetRecordsByField record s).1 = Except.ok records →
        (GetRecordsByFilter u o c s).outcome =
          Outcome.responded (ResponseOk (Data.records records))) ∧
      (∀ e, (o.GetRecordsByField record s).1 = Except.error e →
        (GetRecordsByFilter u o c s).outcome = Outcome.responded (ResponseError e))) ∧
    (∀ e, u.JsonToStruct c.body = Except.error e →
      GetRecordsByFilter u o c s = ⟨Outcome.responded (ResponseError e), s, []⟩) ∧
    (∀ c2 : Ctx, c2.body = c.body →
      GetRecordsByFilter u o c2 s = GetRecordsByFilter u o c s) := by
  refine ⟨?_, ?_, ?_⟩
  · intro record hdec
    simp only [GetRecordsByFilter, hdec]
    rcases h : o.GetRecordsByField record s with ⟨r, s1⟩
    cases r <;> simp
  · intro e hdec
    simp only [GetRecordsByFilter, hdec]
  · intro c2 hbody
    simp only [GetRecordsByFilter, hbody]

/-- C6, amended, on a concrete request: the template of the store call is the
record of the body. -/
theorem GetRecordsByFilter_template_is_body_witness :
    sampleUtil.JsonToStruct filterRequest.body = Except.ok { Organization := "A" } ∧
    (GetRecordsByFilter sampleUtil listStore filterRequest mixedStore).calls =
      [Call.GetRecordsByField { Organization := "A" }] :=
  ⟨rfl,
    ((GetRecordsByFilter_template_is_body sampleUtil listStore filterRequest mixedStore).1
      { Organization := "A" } rfl).1⟩

end scope

/-! ## Single-record lookup -/

section lookup

variable {σ : Type}

/-- `GetRecord` relays the store: one call of `object.GetRecord` with the `id` of
the request; an error of the store becomes an error response, and any other
result is returned as the data of a success response, whatever it is. -/
theorem GetRecord_relays_store (o : Object σ) (c : Ctx) (s : σ) :
    (GetRecord o c s).calls = [Call.GetRecord (c.input "id")] ∧
    (GetRecord o c s).store = (o.GetRecord (c.input "id") s).2 ∧
    (∀ e, (o.GetRecord (c.input "id") s).1 = Except.error e →
      (GetRecord o c s).outcome = Outcome.responded (ResponseError e)) ∧
    (∀ record, (o.GetRecord (c.input "id") s).1 = Except.ok record →
      (GetRecord o c s).outcome = Outcome.responded (ResponseOk (Data.record record))) := by
  simp only [GetRecord]
  rcases h : o.GetRecord (c.input "id") s with ⟨r, s1⟩
  cases r <;> simp

/-- The lookup of the list-backed store finds a record stored under the id, or
reports an error when there is none. -/
theorem listStore_GetRecord (id : String) (s : List Record) :
    (∃ r, r ∈ s ∧ r.GetId = id ∧ s.find? (fun x => decide (x.GetId = id)) = some r ∧
      listStore.GetRecord id s = (Except.ok (some r), s)) ∨
    ((∀ r ∈ s, r.GetId ≠ id) ∧ listStore.GetRecord id s = (Except.error "NotFound", s)) := by
  cases h : s.find? (fun x => decide (x.GetId = id)) with
  | some r =>
    left
    refine ⟨r, List.mem_of_find?_eq_some h, ?_, rfl, ?_⟩
    · simpa using List.find?_some h
    · simp only [listStore, h]
  | none =>
    right
    refine ⟨?_, ?_⟩
    · intro r hr
      have := List.find?_eq_none.mp h r hr
      simpa using this
    · simp only [listStore, h]

/-- C7: single-record lookup `GetRecord`, over the store modelled from the spec. For
every id the lookup leaves the store unchanged and the response is either a
success carrying a record of the store whose id is the requested one (the one
record stored under it when ids are unique), or an error; a success never
carries a nil record; and for every id under which the store holds no record,
also a store left by deleting the record of that id, the response is an error. -/
theorem GetRecord_found_or_error (c : Ctx) (s : List Record) :
    (GetRecord listStore c s).store = s ∧
    ((∃ r, r ∈ s ∧ r.GetId = c.input "id" ∧
        (GetRecord listStore c s).outcome =
          Outcome.responded (ResponseOk (Data.record (some r)))) ∨
      (∃ e, (GetRecord listStore c s).outcome = Outcome.responded (ResponseError e))) ∧
    (∀ r ∈ s, r.GetId = c.input "id" → (∀ r2 ∈ s, r2.GetId = c.input "id" → r2 = r) →
      (GetRecord listStore c s).outcome =
        Outcome.responded (ResponseOk (Data.record (some r)))) ∧
    (GetRecord listStore c s).outcome ≠ Outcome.responded (ResponseOk (Data.record none)) ∧
    ((∀ r ∈ s, r.GetId ≠ c.input "id") →
      ∃ e, (GetRecord listStore c s).outcome = Outcome.responded (ResponseError e)) ∧
    (∀ d : Record, d.GetId = c.input "id" →
      (∀ r ∈ s, r.GetId = d.GetId → sameKey d r = true) →
      ∃ e, (GetRecord listStore c (listStore.DeleteRecord d s).2).outcome =
        Outcome.responded (ResponseError e)) := by
  have hrel := GetRecord_relays_store listStore c s
  have habsent : ∀ (t : List Record), (∀ r ∈ t, r.GetId ≠ c.input "id") →
      ∃ e, (GetRecord listStore c t).outcome = Outcome.responded (ResponseError e) := by
    intro t hno
    rcases listStore_GetRecord (c.input "id") t with ⟨r, hr, hid, _, _⟩ | ⟨_, hget⟩
    · exact absurd hid (hno r hr)
    · exact ⟨"NotFound", (GetRecord_relays_store listStore c t).2.2.1 _ (by rw [hget])⟩
  rcases listStore_GetRecord (c.input "id") s with ⟨r, hr, hid, _, hget⟩ | ⟨hno, hget⟩
  · have hout := hrel.2.2.2 (some r) (by rw [hget])
    refine ⟨by rw [hrel.2.1, hget], Or.inl ⟨r, hr, hid, hout⟩, ?_, ?_, ?_, ?_⟩
    · intro r1 hr1 _ huniq
      rw [hout, ← huniq r hr hid]
    · rw [hout]
      simp [ResponseOk]
    · intro hno
      exact absurd hid (hno r hr)
    · intro d hd hkey
      apply habsent
      intro x hx
      simp only [listStore, List.mem_filter] at hx
      intro hxid
      have := hkey x hx.1 (by rw [hxid, hd])
      simp [this] at hx
  · have hout := hrel.2.2.1 "NotFound" (by rw [hget])
    refine ⟨by rw [hrel.2.1, hget], Or.inr ⟨_, hout⟩, ?_, ?_, ?_, ?_⟩
    · intro r1 hr1 hid _
      exact absurd hid (hno r1 hr1)
    · rw [hout]
      simp [ResponseOk, ResponseError]
    · intro _
      exact ⟨_, hout⟩
    · intro d _ _
      apply habsent
      intro x hx
      simp only [listStore, List.mem_filter] at hx
      exact hno x hx.1

/-- C7 on a concrete store: the id `admin/r2` is found in the store, and it is no
longer found once that record is deleted. -/
theorem GetRecord_found_or_error_witness :
    (GetRecord listStore (request [("id", "admin/r2")] "" "A" false) (recordsOf "A" 3)).outcome =
      Outcome.responded (ResponseOk (Data.record
        (some { Owner := "admin", Name := "r2", Organization := "A" }))) ∧
    (∀ r ∈ recordsOf "A" 1, r.GetId ≠ (request [("id", "admin/r2")] "" "A" false).input "id") ∧
    ∃ e, (GetRecord listStore (request [("id", "admin/r2")] "" "A" false)
        (recordsOf "A" 1)).outcome = Outcome.responded (ResponseError e) :=
  ⟨by decide, by decide,
    (GetRecord_found_or_error (request [("id", "admin/r2")] "" "A" false)
      (recordsOf "A" 1)).2.2.2.2.1 (by decide)⟩

end lookup

/-! ## Mutations -/

section mutations

variable {σ : Type}

/-- C8: for `AddRecord`, `UpdateRecord` and `DeleteRecord` and every request body:
when the body cannot be decoded the store operation is not invoked, the store
is unchanged and the response is an error with the decoder's message; otherwise
the store operation is invoked exactly once with the decoded record (and the
`id` parameter for update), the store is left as that operation left it, and
the response is the envelope `wrapActionResponse` builds from the operation's
result: `ok` with the affected count, or `error` with the operation's message. -/
theorem mutation_decodes_then_applies (u : Util) (o : Object σ) (c : Ctx) (s : σ) :
    (∀ e, u.Unmarshal c.body = Except.error e →
      AddRecord u o c s = ⟨Outcome.responded (ResponseError e), s, []⟩ ∧
      UpdateRecord u o c s = ⟨Outcome.responded (ResponseError e), s, []⟩ ∧
      DeleteRecord u o c s = ⟨Outcome.responded (ResponseError e), s, []⟩ ∧
      (ResponseError e).status = "error" ∧ (ResponseError e).msg = e) ∧
    (∀ record, u.Unmarshal c.body = Except.ok record →
      AddRecord u o c s =
        ⟨Outcome.responded (wrapActionResponse (o.AddRecord record s).1),
          (o.AddRecord record s).2, [Call.AddRecord record]⟩ ∧
      UpdateRecord u o c s =
        ⟨Outcome.responded (wrapActionResponse (o.UpdateRecord (c.input "id") record s).1),
          (o.UpdateRecord (c.input "id") record s).2,
          [Call.UpdateRecord (c.input "id") record]⟩ ∧
      DeleteRecord u o c s =
        ⟨Outcome.responded (wrapActionResponse (o.DeleteRecord record s).1),
          (o.DeleteRecord record s).2, [Call.DeleteRecord record]⟩) ∧
    (∀ n : Nat, wrapActionResponse (n, none) = ⟨"ok", "", Data.affected n, none⟩) ∧
    (∀ (n : Nat) (e : String), wrapActionResponse (n, some e) = ⟨"error", e, Data.null, none⟩) := by
  refine ⟨?_, ?_, fun _ => rfl, fun _ _ => rfl⟩
  · intro e hdec
    simp only [AddRecord, UpdateRecord, DeleteRecord, hdec]
    exact ⟨trivial, trivial, trivial, rfl, rfl⟩
  · intro record hdec
    simp only [AddRecord, UpdateRecord, DeleteRecord, hdec]
    exact ⟨trivial, trivial, trivial⟩

/-- C8 on concrete requests: an empty body leaves the store alone; the body
`admin,r1,A` updates, deletes or (on a store without that key) adds one record. -/
theorem mutation_decodes_then_applies_witness :
    (sampleUtil.Unmarshal (request [] "" "A" false).body =
        Except.error "unexpected end of JSON input" ∧
      AddRecord sampleUtil listStore (request [] "" "A" false) (recordsOf "A" 2) =
        ⟨Outcome.responded (ResponseError "unexpected end of JSON input"),
          recordsOf "A" 2, []⟩) ∧
    (sampleUtil.Unmarshal mutationRequest.body =
        Except.ok { Owner := "admin", Name := "r1", Organization := "A" } ∧
      (DeleteRecord sampleUtil listStore mutationRequest (recordsOf "A" 2)).calls =
        [Call.DeleteRecord { Owner := "admin", Name := "r1", Organization := "A" }] ∧
      (DeleteRecord sampleUtil listStore mutationRequest (recordsOf "A" 2)).outcome =
        Outcome.responded ⟨"ok", "", Data.affected 1, none⟩ ∧
      (DeleteRecord sampleUtil listStore mutationRequest (recordsOf "A" 2)).store =
        (recordsOf "A" 2).drop 1 ∧
      (AddRecord sampleUtil listStore mutationRequest (recordsOf "A" 2)).outcome =
        Outcome.responded ⟨"error", "Conflict", Data.null, none⟩) :=
  ⟨⟨rfl, ((mutation_decodes_then_applies sampleUtil listStore (request [] "" "A" false)
      (recordsOf "A" 2)).1 _ rfl).1⟩,
    rfl,
    by rw [((mutation_decodes_then_applies sampleUtil listStore mutationRequest
      (recordsOf "A" 2)).2.1 _ rfl).2.2]; decide⟩

end mutations

end casvisor
